import Mathlib

/-!
Verification of the fusionn-subs worker against its natural-language
specification.  The Go source is shallowly embedded: strings are modelled at
the character level (`List Char` / `String`), the stateful selector and worker
loops become explicit state-passing functions, and fallible operations return
`Except` / `Option`.  External effects (Redis, HTTP, the subprocess itself)
appear only through their observable results, which are passed in as
parameters.
-/

/-! ## Character-level string helpers mirroring Go's `strings` package -/

/-- `startsWithL p s` is true when `p` is a prefix of `s` (Go `strings.HasPrefix`). -/
def startsWithL : List Char → List Char → Bool
  | [], _ => true
  | _ :: _, [] => false
  | p :: ps, s :: ss => (p == s) && startsWithL ps ss

/-- `hasSubL p s` is true when `p` occurs contiguously inside `s` (Go `strings.Contains`). -/
def hasSubL : List Char → List Char → Bool
  | p, [] => p.isEmpty
  | p, s :: ss => startsWithL p (s :: ss) || hasSubL p ss

/-- Go `strings.Contains(s, pat)`. -/
def strContainsStr (s pat : String) : Bool := hasSubL pat.data s.data

/-- Go `strings.HasSuffix(s, suf)`. -/
def strEndsWith (s suf : String) : Bool := startsWithL suf.data.reverse s.data.reverse

/-- Go `strings.ToLower` (ASCII-faithful). -/
def strToLower (s : String) : String := ⟨s.data.map Char.toLower⟩

/-- Go `strings.TrimSpace` on a character list. -/
def trimSpaceL (cs : List Char) : List Char :=
  ((cs.dropWhile Char.isWhitespace).reverse.dropWhile Char.isWhitespace).reverse

/-- Go `strings.TrimSpace`. -/
def trimSpaceStr (s : String) : String := ⟨trimSpaceL s.data⟩

/-- Go `strings.TrimPrefix(s, ".")`: drops a single leading dot when present. -/
def dropLeadingDot (s : String) : String :=
  match s.data with
  | '.' :: rest => ⟨rest⟩
  | _ => s

/-- Index of the first occurrence of `'.'` (Go `strings.Index(s, ".")`). -/
def firstDotIdx : List Char → Option Nat
  | [] => none
  | c :: rest => if c == '.' then some 0 else (firstDotIdx rest).map (· + 1)

/-- Go `strings.LastIndex(s, pat)`: the greatest position where `pat` starts in `s`. -/
def lastIdxOfSub (s pat : List Char) : Option Nat :=
  ((List.range (s.length + 1)).filter (fun i => startsWithL pat (s.drop i))).getLast?

/-- Go `path/filepath.Ext`: reversed-scan helper; input is the reversed path. -/
def extOfAux : List Char → List Char → List Char
  | [], _ => []
  | c :: rest, acc =>
    if c == '/' then []
    else if c == '.' then c :: acc
    else extOfAux rest (c :: acc)

/-- Go `path/filepath.Ext(p)`: the suffix starting at the final dot of the last path element. -/
def extOf (p : String) : String := ⟨extOfAux p.data.reverse []⟩

/-- Go `strings.TrimSuffix(s, suf)`. -/
def dropEndIfSuffix (s suf : String) : String :=
  if strEndsWith s suf then ⟨s.data.take (s.data.length - suf.data.length)⟩ else s

/-! ## Job Record (`internal/types/job.go`) -/

/-- `types.JobMessage`: one unit of dequeued translation work. -/
structure JobMessage where
  fileName : String := ""
  path : String := ""
  videoPath : String := ""
  overview : String := ""
  provider : String := ""
  deriving Repr, DecidableEq

/-- `JobMessage.Validate`: the path must be non-blank after trimming whitespace. -/
def JobMessage.validate (m : JobMessage) : Except String Unit :=
  if trimSpaceStr m.path = "" then .error "message.path is required" else .ok ()

/-- `JobMessage.OutputPath`: derive the output artifact path from the input path
and the configured suffix, by replacing a trailing `.eng` marker, or a trailing
`.srt`, or the extension, or appending. -/
def JobMessage.outputPath (m : JobMessage) (suffix : String) : String :=
  if suffix = "" then m.path
  else
    let cleanSuffix := dropLeadingDot suffix
    if cleanSuffix = "" then m.path
    else
      let replacement : String :=
        match firstDotIdx cleanSuffix.data with
        | some d => ⟨cleanSuffix.data.take d⟩
        | none => cleanSuffix
      let lowerPath := strToLower m.path
      match lastIdxOfSub lowerPath.data ".eng".data with
      | some idx =>
          (⟨m.path.data.take (idx + 1)⟩ : String) ++ replacement ++ ⟨m.path.data.drop (idx + 4)⟩
      | none =>
        if strEndsWith lowerPath ".srt" then
          (⟨m.path.data.take (m.path.data.length - 4)⟩ : String) ++ "." ++ cleanSuffix
        else
          let ext := extOf m.path
          if ext ≠ "" then dropEndIfSuffix m.path ext ++ "." ++ cleanSuffix ++ ext
          else m.path ++ "." ++ cleanSuffix

/-! ## Translation providers (`internal/service/translator/gemini.go`, `openrouter.go`) -/

/-- Construction-time fields of `translator.GeminiTranslator`. -/
structure GeminiTranslatorCfg where
  scriptPath : String := ""
  workDir : String := ""
  apiKey : String := ""
  model : String := ""
  instruction : String := ""
  maxBatchSize : Int := 0
  rateLimit : Int := 0
  targetLanguage : String := ""
  outputSuffix : String := ""
  deriving Repr, DecidableEq

/-- Construction-time fields of `translator.OpenRouterTranslator`. -/
structure OpenRouterTranslatorCfg where
  scriptPath : String := ""
  workDir : String := ""
  apiKey : String := ""
  model : String := ""
  instruction : String := ""
  maxBatchSize : Int := 0
  rateLimit : Int := 0
  targetLanguage : String := ""
  outputSuffix : String := ""
  deriving Repr, DecidableEq

/-- Argument vector that `GeminiTranslator.Translate` hands to `exec.CommandContext`
for the external script (the script path itself excluded). -/
def geminiArgs (t : GeminiTranslatorCfg) (msg : JobMessage) : List String :=
  let outPath := msg.outputPath t.outputSuffix
  let args := [msg.path, "-o", outPath, "-l", t.targetLanguage, "-k", t.apiKey]
  let args := if t.model ≠ "" then args ++ ["-m", t.model] else args
  let args :=
    if trimSpaceStr msg.overview ≠ "" then args ++ ["-d", trimSpaceStr msg.overview] else args
  let args := if t.instruction ≠ "" then args ++ ["--instruction", t.instruction] else args
  let args := if t.rateLimit > 0 then args ++ ["--ratelimit", toString t.rateLimit] else args
  let args :=
    if t.maxBatchSize > 0 then args ++ ["--maxbatchsize", toString t.maxBatchSize] else args
  args

/-- The single extra environment entry `GeminiTranslator.Translate` appends to the
inherited environment. -/
def geminiEnvEntry (t : GeminiTranslatorCfg) : String := "GEMINI_API_KEY=" ++ t.apiKey

/-- Argument vector that `OpenRouterTranslator.Translate` hands to `exec.CommandContext`. -/
def openRouterArgs (t : OpenRouterTranslatorCfg) (msg : JobMessage) : List String :=
  let outPath := msg.outputPath t.outputSuffix
  let args := [msg.path, "-o", outPath, "-l", t.targetLanguage, "--apikey", t.apiKey,
               "--model", t.model]
  let args :=
    if trimSpaceStr msg.overview ≠ "" then args ++ ["-d", trimSpaceStr msg.overview] else args
  let args := if t.instruction ≠ "" then args ++ ["--instruction", t.instruction] else args
  let args := if t.rateLimit > 0 then args ++ ["--ratelimit", toString t.rateLimit] else args
  let args :=
    if t.maxBatchSize > 0 then args ++ ["--maxbatchsize", toString t.maxBatchSize] else args
  args

/-- The extra environment entry `OpenRouterTranslator.Translate` appends. -/
def openRouterEnvEntry (t : OpenRouterTranslatorCfg) : String :=
  "OPENROUTER_API_KEY=" ++ t.apiKey

/-- Everything `Translate` has prepared at the moment it would launch the subprocess. -/
structure PreparedCommand where
  scriptPath : String
  args : List String
  envEntry : String
  outPath : String
  deriving Repr, DecidableEq

/-- The pre-subprocess phase of `GeminiTranslator.Translate`: validate, derive the
output path, build the argument vector and environment entry.  Validation failure
aborts before any of the derived values are computed. -/
def geminiTranslateCmd (t : GeminiTranslatorCfg) (msg : JobMessage) :
    Except String PreparedCommand :=
  match msg.validate with
  | .error e => .error ("invalid message: " ++ e)
  | .ok _ =>
    .ok { scriptPath := t.scriptPath
          args := geminiArgs t msg
          envEntry := geminiEnvEntry t
          outPath := msg.outputPath t.outputSuffix }

/-! ## Subprocess outcome classification (`internal/service/translator/translator.go`) -/

/-- `detectScriptFailure`'s fixed fatal-phrase list (kept lowercase, as in the source). -/
def fatalIndicators : List String :=
  ["translationimpossibleerror",
   "failed to translate",
   "failed to communicate with provider",
   "saving partial results",
   "traceback (most recent call last)"]

/-- `detectScriptFailure(stdoutStr, stderrStr)`: lowercase the newline-joined
captured output and report the first fatal phrase it contains. -/
def detectScriptFailure (stdoutStr stderrStr : String) : String × Bool :=
  let combined := strToLower (stdoutStr ++ "\n" ++ stderrStr)
  match fatalIndicators.find? (fun ind => strContainsStr combined ind) with
  | some ind => (ind, true)
  | none => ("", false)

/-- Observable result of one subprocess run: exit error (if any), whether the
expected output file exists afterwards, and the raw captured streams. -/
structure ScriptRun where
  exitErr : Option String := none
  outputExists : Bool := true
  stdoutRaw : String := ""
  stderrRaw : String := ""
  deriving Repr, DecidableEq

/-- Post-exit classification performed by `executeScript` (shared by both
providers): non-zero exit fails; a zero exit still fails when the output file is
missing or the captured output matches a fatal phrase. -/
def executeScriptOutcome (run : ScriptRun) (outPath : String) : Except String String :=
  let stdoutStr := trimSpaceStr run.stdoutRaw
  let stderrStr := trimSpaceStr run.stderrRaw
  match run.exitErr with
  | some e => .error ("script failed: " ++ e)
  | none =>
    if !run.outputExists then .error "output not found"
    else
      match detectScriptFailure stdoutStr stderrStr with
      | (reason, true) => .error ("script reported failure: " ++ reason)
      | (_, false) => .ok outPath

/-! ## Worker loop (`Worker.Run` / `Worker.processNext`) -/

/-- Result of one blocking dequeue (`BRPop` with timeout). -/
inductive DequeueOutcome where
  | timeoutEmpty : DequeueOutcome
  | connError : String → DequeueOutcome
  | payload : String → DequeueOutcome
  deriving Repr, DecidableEq

/-- Backoff settings of the worker loop, in seconds. -/
def initialBackoff : Nat := 1

/-- Ceiling of the worker backoff, in seconds. -/
def maxBackoff : Nat := 30

/-- The error (or nil) that `Worker.processNext` returns for one dequeue outcome:
a timeout and every payload path (malformed or processed, failed or not) return
nil; only a connection error is propagated. -/
def processNextErr (o : DequeueOutcome)
    (parse : String → Option JobMessage) (handle : JobMessage → Option String) :
    Option String :=
  match o with
  | .timeoutEmpty => none
  | .connError e => some e
  | .payload raw =>
    match parse raw with
    | none => none
    | some msg =>
      match handle msg with
      | some _ => none
      | none => none

/-- The backoff value `Worker.Run` holds after one loop iteration: doubled (capped)
after a `processNext` error, reset to the initial value otherwise. -/
def runIterationBackoff (backoff : Nat) (o : DequeueOutcome)
    (parse : String → Option JobMessage) (handle : JobMessage → Option String) : Nat :=
  match processNextErr o parse handle with
  | some _ => min (backoff * 2) maxBackoff
  | none => initialBackoff

/-! ## Model catalog (`internal/client/openrouter` segment of `client.go`) -/

/-- `openrouter.Model`: one catalog entry, with string pricing sub-fields. -/
structure Model where
  id : String := ""
  name : String := ""
  contextLen : Nat := 0
  description : String := ""
  pricingPrompt : String := "0"
  pricingCompletion : String := "0"
  deriving Repr, DecidableEq

/-- `isFreeModel`: free when the identifier ends with `":free"`, or both pricing
sub-fields are the literal `"0"`. -/
def isFreeModel (m : Model) : Bool :=
  if strEndsWith m.id ":free" then true
  else m.pricingPrompt == "0" && m.pricingCompletion == "0"

/-- The free-only filtering `Client.GetFreeModels` applies to a fetched catalog. -/
def filterFreeModels (ms : List Model) : List Model := ms.filter isFreeModel

/-! ## Evaluator (`internal/service/modelselection/evaluator.go`) -/

/-- Truncate at the first occurrence of `c` (Go `strings.Index` + slice; the whole
string when `c` is absent). -/
def takeUntilChar (c : Char) (s : String) : String := ⟨s.data.takeWhile (· ≠ c)⟩

/-- The response post-processing in `callGemini`: trim, cut at the first line
break, cut at the first space, trim again. -/
def parseGeminiResponse (raw : String) : String :=
  trimSpaceStr (takeUntilChar ' ' (takeUntilChar '\n' (trimSpaceStr raw)))

/-- The validation half of `GeminiEvaluator.SelectBestModel`, applied to the text
`resp` the external service returned (its network call is passed in as a value):
exact membership wins, then the first substring-overlap fuzzy match, else failure. -/
def selectBestModel (models : List Model) (resp : String) : Except String String :=
  if models.isEmpty then .error "no models provided"
  else
    let sel := trimSpaceStr resp
    match models.find? (fun m => m.id == sel) with
    | some _ => .ok sel
    | none =>
      let suggestions :=
        models.filter (fun m => strContainsStr m.id sel || strContainsStr sel m.id)
      match suggestions with
      | m0 :: _ => .ok m0.id
      | [] => .error ("selected model " ++ sel ++ " not found in available models")

/-! ## Model selector (`internal/service/modelselection/selector.go`) -/

/-- Mutable fields of `Selector` guarded by its read/write lock. -/
structure SelectorState where
  selected : String := ""
  lastKnown : String := ""
  lastEvalTime : Nat := 0
  deriving Repr, DecidableEq

/-- Selector state at process start: nothing selected yet. -/
def initialSelectorState : SelectorState := {}

/-- `Selector.GetCurrentModel`: `selected`, else `lastKnown`, else the configured
fallback model. -/
def getCurrentModel (s : SelectorState) (fallbackModel : String) : String :=
  if s.selected ≠ "" then s.selected
  else if s.lastKnown ≠ "" then s.lastKnown
  else fallbackModel

/-- `Selector.evaluate` as a state transition.  `catalog` is the result of
`GetFreeModels` (already free-filtered), `pick` the evaluator's `SelectBestModel`,
`now` the clock reading at the update.  Returns the new state and whether the
cycle succeeded; every failure path leaves the state untouched. -/
def evaluateCycle (s : SelectorState) (catalog : Except String (List Model))
    (pick : List Model → Except String String) (now : Nat) : SelectorState × Bool :=
  match catalog with
  | .error _ => (s, false)
  | .ok ms =>
    if ms.isEmpty then (s, false)
    else
      match pick ms with
      | .error _ => (s, false)
      | .ok sel => ({ selected := sel, lastKnown := sel, lastEvalTime := now }, true)

/-- `Selector.Start`'s initial synchronous cycle: on failure, both `selected` and
`lastKnown` are set to the configured fallback model. -/
def startEvaluate (s : SelectorState) (catalog : Except String (List Model))
    (pick : List Model → Except String String) (now : Nat) (fallbackModel : String) :
    SelectorState :=
  let r := evaluateCycle s catalog pick now
  if r.2 then r.1
  else { r.1 with selected := fallbackModel, lastKnown := fallbackModel }

/-! ## Scheduler (`Selector.runScheduler`), at hourly-tick granularity.

The Go scheduler wakes on a one-hour ticker; at each tick it compares the local
hour with the configured hour and the elapsed time since `lastEvalTime` with 23
hours.  Time is modelled in minutes; ticks occur at `t0 + 60*k`. -/

/-- Hour-of-day of a time given in minutes. -/
def hourOfMin (t : Nat) : Nat := (t / 60) % 24

/-- The trigger guard of `runScheduler`: local hour matches and at least 23 hours
(1380 minutes) have passed since `lastEvalTime`. -/
def evalGuard (scheduleHour lastEval t : Nat) : Bool :=
  (hourOfMin t == scheduleHour) && (1380 ≤ t - lastEval)

/-- Run the scheduler over `n` hourly ticks starting at tick index `k`, with
`lastEval` the recorded time of the last successful evaluation (`fail j` tells
whether the evaluation attempted at tick `j` fails; a failed attempt leaves
`lastEval` unchanged, as in `evaluate`).  Returns the times of all triggered
evaluation attempts. -/
def schedRun (scheduleHour t0 : Nat) (fail : Nat → Bool) :
    Nat → Nat → Nat → List Nat
  | 0, _, _ => []
  | n + 1, k, lastEval =>
    let t := t0 + 60 * k
    if evalGuard scheduleHour lastEval t then
      t :: schedRun scheduleHour t0 fail n (k + 1) (if fail k then lastEval else t)
    else
      schedRun scheduleHour t0 fail n (k + 1) lastEval

/-! ## Theorems -/

/-- C1: the spec requires that the credential never appear in the argument vector
and be supplied only through the environment.  The code violates this: both
`GeminiTranslator.Translate` and `OpenRouterTranslator.Translate` place the API
key in the argument vector (after `-k` resp. `--apikey`) in addition to the
environment entry, contradicting the source's own comment "Pass API key via
environment only (security: not visible in process list)".  This theorem
evaluates the embedded arg builders: the key is always a member of the argument
vector. -/
theorem c1_credential_in_argv :
    (∀ (t : GeminiTranslatorCfg) (msg : JobMessage), t.apiKey ∈ geminiArgs t msg) ∧
    (∀ (t : OpenRouterTranslatorCfg) (msg : JobMessage), t.apiKey ∈ openRouterArgs t msg) := by
  constructor
  · intro t msg
    simp only [geminiArgs]
    split_ifs <;> simp
  · intro t msg
    simp only [openRouterArgs]
    split_ifs <;> simp

/-- C3 fails as stated: `OutputPath` maps `path="movie.srt"`, `suffix=".chs"` to
`"movie.chs"` (the `.srt` branch replaces the extension with the clean suffix and
does not re-append `.srt`), not to the claimed `"movie.chs.srt"`. -/
theorem c3_counterexample :
    JobMessage.outputPath { path := "movie.srt" } ".chs" = "movie.chs" ∧
    JobMessage.outputPath { path := "movie.srt" } ".chs" ≠ "movie.chs.srt" := by
  constructor
  · decide
  · decide

/-- C3 (amended): `OutputPath` is a pure, deterministic function of
`(path, suffix)` — it reads no other field of the Job Record — and it maps
`("movie.eng.srt", "chs")` to `"movie.chs.srt"`, `("movie.srt", ".chs")` to
`"movie.chs"`, and `("movie.mp4", "chs")` to `"movie.chs.mp4"`. -/
theorem c3_output_path :
    (∀ (m₁ m₂ : JobMessage) (suf : String), m₁.path = m₂.path →
        m₁.outputPath suf = m₂.outputPath suf) ∧
    JobMessage.outputPath { path := "movie.eng.srt" } "chs" = "movie.chs.srt" ∧
    JobMessage.outputPath { path := "movie.srt" } ".chs" = "movie.chs" ∧
    JobMessage.outputPath { path := "movie.mp4" } "chs" = "movie.chs.mp4" := by
  refine ⟨?_, by decide, by decide, by decide⟩
  intro m₁ m₂ suf h
  simp only [JobMessage.outputPath, h]

/-- Witness for the amended C3: the purity clause applied at two Job Records
that share a path but differ elsewhere. -/
theorem c3_witness :
    JobMessage.outputPath { path := "show.eng.srt", overview := "a" } "chs" =
      JobMessage.outputPath { path := "show.eng.srt", fileName := "b" } "chs" :=
  c3_output_path.1 { path := "show.eng.srt", overview := "a" }
    { path := "show.eng.srt", fileName := "b" } "chs" rfl

/-- C7 fails as stated: a timeout iteration does not leave a previously grown
backoff unchanged — `Worker.Run` resets the backoff to its 1-second minimum on
every nil return from `processNext`, timeouts included.  Concretely, a backoff of
4 seconds becomes 1 second, not 4. -/
theorem c7_counterexample :
    processNextErr DequeueOutcome.timeoutEmpty (fun _ => none) (fun _ => none) = none ∧
    runIterationBackoff 4 DequeueOutcome.timeoutEmpty (fun _ => none) (fun _ => none) ≠ 4 := by
  exact ⟨rfl, by decide⟩

/-- C7 (amended): when the blocking dequeue times out with no item, `processNext`
returns nil without error, and the loop resets the backoff counter to its initial
value (1s) — so a backoff previously grown by connection errors is reset, not
preserved, across a timeout iteration. -/
theorem c7_timeout_resets_backoff :
    ∀ (backoff : Nat) (parse : String → Option JobMessage)
      (handle : JobMessage → Option String),
      processNextErr DequeueOutcome.timeoutEmpty parse handle = none ∧
      runIterationBackoff backoff DequeueOutcome.timeoutEmpty parse handle = initialBackoff :=
  fun _ _ _ => ⟨rfl, rfl⟩

/-- C9: a catalog entry is classified free iff its identifier ends in `":free"`
or both pricing sub-fields are `"0"`; an entry with one non-zero pricing field
and no marker is not free; and `GetFreeModels`' filtering keeps exactly the
entries classified free. -/
theorem c9_free_classification :
    ∀ (m : Model) (ms : List Model),
      (isFreeModel m = true ↔
        strEndsWith m.id ":free" = true ∨
          (m.pricingPrompt = "0" ∧ m.pricingCompletion = "0")) ∧
      (m ∈ filterFreeModels ms ↔ m ∈ ms ∧ isFreeModel m = true) ∧
      isFreeModel { id := "vendor/plain-model", pricingPrompt := "0",
                    pricingCompletion := "0.001" } = false := by
  intro m ms
  refine ⟨?_, ?_, by decide⟩
  · unfold isFreeModel
    by_cases h : strEndsWith m.id ":free" = true
    · simp [h]
    · simp only [if_neg h]
      simp only [h, false_or]
      simp [Bool.and_eq_true, beq_iff_eq]
  · unfold filterFreeModels
    exact List.mem_filter

/-- Trimming a string made entirely of whitespace yields the empty string. -/
theorem trimSpaceStr_of_all_whitespace (s : String)
    (h : s.data.all Char.isWhitespace = true) : trimSpaceStr s = "" := by
  have hall : ∀ c ∈ s.data, Char.isWhitespace c := by
    intro c hc
    exact List.all_eq_true.mp h c hc
  have hdrop : s.data.dropWhile Char.isWhitespace = [] :=
    List.dropWhile_eq_nil_iff.mpr hall
  unfold trimSpaceStr trimSpaceL
  rw [hdrop]
  rfl

/-- C10: `Validate` rejects any path that trims to empty — whitespace-only paths
included — and `Translate` then fails with the wrapped validation error before
any subprocess argument vector is produced. -/
theorem c10_blank_path_rejected :
    ∀ (msg : JobMessage) (t : GeminiTranslatorCfg),
      msg.path.data.all Char.isWhitespace = true →
      (msg.validate).isOk = false ∧
      geminiTranslateCmd t msg = .error "invalid message: message.path is required" := by
  intro msg t h
  have htrim : trimSpaceStr msg.path = "" := trimSpaceStr_of_all_whitespace _ h
  have hval : msg.validate = .error "message.path is required" := by
    unfold JobMessage.validate
    rw [if_pos htrim]
  refine ⟨by rw [hval]; rfl, ?_⟩
  unfold geminiTranslateCmd
  rw [hval]
  rfl

/-- Witness for C10 at the concrete whitespace-only path `"  \t "`. -/
theorem c10_witness :
    (JobMessage.validate { path := "  \t " }).isOk = false ∧
    geminiTranslateCmd {} { path := "  \t " } =
      .error "invalid message: message.path is required" :=
  c10_blank_path_rejected { path := "  \t " } {} (by decide)

/-- C4: after a zero exit, `executeScript` still fails when the combined captured
output contains one of the fixed fatal phrases case-insensitively (the captured
streams are trimmed, joined with a newline and lowercased before the check), and
also fails when the expected output file is missing. -/
theorem c4_zero_exit_failures :
    ∀ (run : ScriptRun) (outPath : String), run.exitErr = none →
      ((∃ ind ∈ fatalIndicators,
          strContainsStr
            (strToLower (trimSpaceStr run.stdoutRaw ++ "\n" ++ trimSpaceStr run.stderrRaw))
            ind = true) →
        (executeScriptOutcome run outPath).isOk = false) ∧
      (run.outputExists = false → (executeScriptOutcome run outPath).isOk = false) := by
  intro run outPath hexit
  constructor
  · rintro ⟨ind, hmem, hcont⟩
    have hsome :
        (fatalIndicators.find? (fun i => strContainsStr
          (strToLower (trimSpaceStr run.stdoutRaw ++ "\n" ++ trimSpaceStr run.stderrRaw))
          i)).isSome := by
      rw [List.find?_isSome]
      exact ⟨ind, hmem, hcont⟩
    obtain ⟨i, hfind⟩ := Option.isSome_iff_exists.mp hsome
    unfold executeScriptOutcome detectScriptFailure
    rw [hexit]
    cases hout : run.outputExists
    · rfl
    · simp only [Bool.not_true, Bool.false_eq_true, if_false]
      rw [hfind]
      rfl
  · intro hmiss
    unfold executeScriptOutcome
    rw [hexit, hmiss]
    rfl

/-- Witness for C4: a run that exits 0, leaves the output file in place, but whose
stdout contains "FAILED To Translate" — classified as a failure; and a run with a
missing output file — also a failure. -/
theorem c4_witness :
    (executeScriptOutcome
      { exitErr := none, outputExists := true,
        stdoutRaw := "Done. FAILED To Translate 3 lines", stderrRaw := "" }
      "out.srt").isOk = false ∧
    (executeScriptOutcome
      { exitErr := none, outputExists := false, stdoutRaw := "", stderrRaw := "" }
      "out.srt").isOk = false :=
  ⟨(c4_zero_exit_failures
      { exitErr := none, outputExists := true,
        stdoutRaw := "Done. FAILED To Translate 3 lines", stderrRaw := "" }
      "out.srt" rfl).1 ⟨"failed to translate", by decide, by decide⟩,
   (c4_zero_exit_failures
      { exitErr := none, outputExists := false, stdoutRaw := "", stderrRaw := "" }
      "out.srt" rfl).2 rfl⟩

/-- A failed evaluation cycle leaves the selector state exactly as it was. -/
theorem evaluateCycle_fail_frame (s : SelectorState) (catalog : Except String (List Model))
    (pick : List Model → Except String String) (now : Nat)
    (h : (evaluateCycle s catalog pick now).2 = false) :
    (evaluateCycle s catalog pick now).1 = s := by
  unfold evaluateCycle at *
  cases catalog with
  | error e => rfl
  | ok ms =>
    by_cases hempty : ms.isEmpty
    · simp [hempty]
    · simp only [hempty, Bool.false_eq_true, if_false] at h ⊢
      cases hp : pick ms with
      | error e => rfl
      | ok sel => rw [hp] at h; simp at h

/-- A successful evaluation cycle on a non-empty catalog sets both fields to the
evaluator's pick. -/
theorem evaluateCycle_ok_eq (s : SelectorState) (ms : List Model)
    (pick : List Model → Except String String) (now : Nat) (m : String)
    (hms : ms ≠ []) (hpick : pick ms = .ok m) :
    evaluateCycle s (.ok ms) pick now =
      ({ selected := m, lastKnown := m, lastEvalTime := now }, true) := by
  have hempty : ms.isEmpty = false := by
    cases ms with
    | nil => exact absurd rfl hms
    | cons a l => rfl
  simp [evaluateCycle, hempty, hpick]

/-- C6: whenever an evaluation cycle fails — catalog fetch error, empty free-model
set, or evaluator failure — the `selected` and `lastKnown` fields are unchanged by
that cycle, so `GetCurrentModel` returns the same value as before; the three
failure causes are exactly the cycles reported failed. -/
theorem c6_failure_frame :
    ∀ (s : SelectorState) (catalog : Except String (List Model))
      (pick : List Model → Except String String) (now : Nat) (fb : String),
      ((evaluateCycle s catalog pick now).2 = false →
        (evaluateCycle s catalog pick now).1.selected = s.selected ∧
        (evaluateCycle s catalog pick now).1.lastKnown = s.lastKnown ∧
        getCurrentModel (evaluateCycle s catalog pick now).1 fb = getCurrentModel s fb) ∧
      (∀ e, catalog = .error e → (evaluateCycle s catalog pick now).2 = false) ∧
      (catalog = .ok [] → (evaluateCycle s catalog pick now).2 = false) ∧
      (∀ ms e, catalog = .ok ms → pick ms = .error e →
        (evaluateCycle s catalog pick now).2 = false) := by
  intro s catalog pick now fb
  refine ⟨?_, ?_, ?_, ?_⟩
  · intro h
    have hframe := evaluateCycle_fail_frame s catalog pick now h
    rw [hframe]
    exact ⟨rfl, rfl, rfl⟩
  · intro e he
    subst he
    rfl
  · intro he
    subst he
    rfl
  · intro ms e hcat hpick
    subst hcat
    unfold evaluateCycle
    by_cases hempty : ms.isEmpty
    · simp [hempty]
    · simp only [hempty, Bool.false_eq_true, if_false]
      rw [hpick]

/-- Witness for C6: a concrete failed cycle (evaluator error) leaves a concrete
state, and `GetCurrentModel`'s answer, untouched. -/
theorem c6_witness :
    (evaluateCycle { selected := "a/b:free", lastKnown := "a/b:free", lastEvalTime := 7 }
        (.ok [{ id := "a/b:free" }]) (fun _ => .error "boom") 9).1.selected = "a/b:free" ∧
    getCurrentModel
      (evaluateCycle { selected := "a/b:free", lastKnown := "a/b:free", lastEvalTime := 7 }
        (.ok [{ id := "a/b:free" }]) (fun _ => .error "boom") 9).1 "fallback" =
      getCurrentModel
        { selected := "a/b:free", lastKnown := "a/b:free", lastEvalTime := 7 } "fallback" := by
  have h := (c6_failure_frame
    { selected := "a/b:free", lastKnown := "a/b:free", lastEvalTime := 7 }
    (.ok [{ id := "a/b:free" }]) (fun _ => .error "boom") 9 "fallback").1 (by decide)
  exact ⟨h.1, h.2.2⟩

/-- C2: `GetCurrentModel` resolves `selected`, else `lastKnown`, else the static
fallback; and in the three scenarios — before any evaluation, after a failed
cycle that followed a successful one, and after a failed initial cycle with no
prior success — it returns the fallback, the previously selected model, and the
fallback respectively. -/
theorem c2_model_resolution :
    ∀ (s : SelectorState) (fb : String),
      (s.selected ≠ "" → getCurrentModel s fb = s.selected) ∧
      (s.selected = "" → s.lastKnown ≠ "" → getCurrentModel s fb = s.lastKnown) ∧
      (s.selected = "" → s.lastKnown = "" → getCurrentModel s fb = fb) ∧
      getCurrentModel initialSelectorState fb = fb ∧
      (∀ (ms : List Model) (pick : List Model → Except String String) (now : Nat)
         (m : String) (cat₂ : Except String (List Model))
         (pick₂ : List Model → Except String String) (now₂ : Nat),
        ms ≠ [] → pick ms = .ok m → m ≠ "" →
        (evaluateCycle (evaluateCycle s (.ok ms) pick now).1 cat₂ pick₂ now₂).2 = false →
        getCurrentModel
          (evaluateCycle (evaluateCycle s (.ok ms) pick now).1 cat₂ pick₂ now₂).1 fb = m) ∧
      (∀ (cat : Except String (List Model)) (pick : List Model → Except String String)
         (now : Nat),
        (evaluateCycle initialSelectorState cat pick now).2 = false →
        getCurrentModel (startEvaluate initialSelectorState cat pick now fb) fb = fb) := by
  intro s fb
  refine ⟨?_, ?_, ?_, ?_, ?_, ?_⟩
  · intro h
    unfold getCurrentModel
    rw [if_pos h]
  · intro h1 h2
    unfold getCurrentModel
    rw [if_neg (by simpa using h1), if_pos h2]
  · intro h1 h2
    unfold getCurrentModel
    rw [if_neg (by simpa using h1), if_neg (by simpa using h2)]
  · rfl
  · intro ms pick now m cat₂ pick₂ now₂ hms hpick hm hfail
    rw [evaluateCycle_ok_eq s ms pick now m hms hpick] at hfail ⊢
    rw [evaluateCycle_fail_frame _ cat₂ pick₂ now₂ hfail]
    unfold getCurrentModel
    rw [if_pos (by simpa using hm)]
  · intro cat pick now hfail
    simp only [startEvaluate, hfail, Bool.false_eq_true, if_false]
    by_cases hfb : fb = ""
    · subst hfb
      unfold getCurrentModel
      simp
    · unfold getCurrentModel
      simp [hfb]

/-- Witness for C2: the three scenarios at concrete inputs — fresh state yields
the fallback; a failed cycle after a successful pick of `"a/b:free"` still yields
`"a/b:free"`; a failed initial cycle yields the fallback through `Start`'s
fallback assignment. -/
theorem c2_witness :
    getCurrentModel { selected := "x", lastKnown := "y", lastEvalTime := 0 } "fb" = "x" ∧
    getCurrentModel initialSelectorState "fb" = "fb" ∧
    getCurrentModel
      (evaluateCycle
        (evaluateCycle initialSelectorState (.ok [{ id := "a/b:free" }])
          (fun _ => .ok "a/b:free") 5).1
        (.error "down") (fun _ => .error "down") 6).1 "fb" = "a/b:free" ∧
    getCurrentModel
      (startEvaluate initialSelectorState (.error "down") (fun _ => .error "down") 5 "fb")
      "fb" = "fb" := by
  refine ⟨(c2_model_resolution { selected := "x", lastKnown := "y", lastEvalTime := 0 }
            "fb").1 (by decide),
          (c2_model_resolution initialSelectorState "fb").2.2.2.1,
          (c2_model_resolution initialSelectorState "fb").2.2.2.2.1
            [{ id := "a/b:free" }] (fun _ => .ok "a/b:free") 5 "a/b:free"
            (.error "down") (fun _ => .error "down") 6 (by decide) rfl (by decide) rfl,
          (c2_model_resolution initialSelectorState "fb").2.2.2.2.2
            (.error "down") (fun _ => .error "down") 5 rfl⟩

/-- C5: on a non-empty candidate list, a successful `SelectBestModel` always
returns the identifier of some input candidate: the parsed response itself when
it is an exact member, otherwise the first candidate with a substring overlap;
with no overlap at all the call fails. -/
theorem c5_selection_membership :
    ∀ (models : List Model) (resp : String), models ≠ [] →
      (∀ out, selectBestModel models resp = .ok out → out ∈ models.map Model.id) ∧
      ((models.find? (fun m => m.id == trimSpaceStr resp)).isSome →
        selectBestModel models resp = .ok (trimSpaceStr resp)) ∧
      (∀ (m0 : Model) (rest : List Model),
        models.find? (fun m => m.id == trimSpaceStr resp) = none →
        models.filter (fun m => strContainsStr m.id (trimSpaceStr resp) ||
          strContainsStr (trimSpaceStr resp) m.id) = m0 :: rest →
        selectBestModel models resp = .ok m0.id) ∧
      (models.find? (fun m => m.id == trimSpaceStr resp) = none →
        models.filter (fun m => strContainsStr m.id (trimSpaceStr resp) ||
          strContainsStr (trimSpaceStr resp) m.id) = [] →
        (selectBestModel models resp).isOk = false) := by
  intro models resp hne
  have hempty : models.isEmpty = false := by
    cases models with
    | nil => exact absurd rfl hne
    | cons a l => rfl
  refine ⟨?_, ?_, ?_, ?_⟩
  · intro out hout
    simp only [selectBestModel, hempty, Bool.false_eq_true, if_false] at hout
    cases hf : models.find? (fun m => m.id == trimSpaceStr resp) with
    | some m =>
      rw [hf] at hout
      have hmem : m ∈ models := List.mem_of_find?_eq_some hf
      have hid : m.id = trimSpaceStr resp := by
        have := List.find?_some hf
        simpa [beq_iff_eq] using this
      have hout' : out = trimSpaceStr resp := by
        cases hout
        rfl
      rw [hout', ← hid]
      exact List.mem_map_of_mem Model.id hmem
    | none =>
      rw [hf] at hout
      cases hfil : models.filter (fun m => strContainsStr m.id (trimSpaceStr resp) ||
          strContainsStr (trimSpaceStr resp) m.id) with
      | nil => rw [hfil] at hout; cases hout
      | cons m0 rest =>
        rw [hfil] at hout
        have hout' : out = m0.id := by
          cases hout
          rfl
        have hm0 : m0 ∈ models := by
          have : m0 ∈ models.filter (fun m => strContainsStr m.id (trimSpaceStr resp) ||
              strContainsStr (trimSpaceStr resp) m.id) := by
            rw [hfil]; exact List.mem_cons_self m0 rest
          exact List.mem_of_mem_filter this
        rw [hout']
        exact List.mem_map_of_mem Model.id hm0
  · intro hsome
    obtain ⟨m, hf⟩ := Option.isSome_iff_exists.mp hsome
    simp only [selectBestModel, hempty, Bool.false_eq_true, if_false]
    rw [hf]
  · intro m0 rest hf hfil
    simp only [selectBestModel, hempty, Bool.false_eq_true, if_false]
    rw [hf, hfil]
  · intro hf hfil
    simp only [selectBestModel, hempty, Bool.false_eq_true, if_false]
    rw [hf, hfil]
    rfl

/-- Witness for C5: the evaluator answers `"gemini-2.0"`, which is not a candidate
but is a substring of the sole candidate `"google/gemini-2.0:free"`; selection
succeeds with that candidate. -/
theorem c5_witness :
    selectBestModel [{ id := "google/gemini-2.0:free" }] "gemini-2.0" =
      .ok "google/gemini-2.0:free" :=
  (c5_selection_membership [{ id := "google/gemini-2.0:free" }] "gemini-2.0"
      (by decide)).2.2.1 { id := "google/gemini-2.0:free" } [] (by decide) (by decide)

/-- Hour-of-day of the `j`-th hourly tick after `t0`. -/
theorem hourOfMin_tick (t0 j : Nat) : hourOfMin (t0 + 60 * j) = (t0 / 60 + j) % 24 := by
  unfold hourOfMin
  rw [Nat.add_mul_div_left _ _ (by norm_num : (0 : Nat) < 60)]

/-- Every evaluation attempt the scheduler triggers happens at an hourly tick
whose hour-of-day is the configured hour. -/
theorem schedRun_mem_shape (H t0 : Nat) (fail : Nat → Bool) :
    ∀ (n k le t : Nat), t ∈ schedRun H t0 fail n k le →
      ∃ j, t = t0 + 60 * j ∧ hourOfMin t = H := by
  intro n
  induction n with
  | zero =>
    intro k le t ht
    simp [schedRun] at ht
  | succ n ih =>
    intro k le t ht
    simp only [schedRun] at ht
    by_cases hg : evalGuard H le (t0 + 60 * k) = true
    · rw [if_pos hg] at ht
      rcases List.mem_cons.mp ht with h1 | h2
      · refine ⟨k, h1, ?_⟩
        have hh : hourOfMin (t0 + 60 * k) = H := by
          have hg' := hg
          simp only [evalGuard, Bool.and_eq_true, beq_iff_eq, decide_eq_true_eq] at hg'
          exact hg'.1
        rw [h1]
        exact hh
      · exact ih (k + 1) _ t h2
    · rw [if_neg hg] at ht
      exact ih (k + 1) le t ht

/-- Two hourly ticks sharing the same hour-of-day are at least 24 tick indices
apart. -/
theorem tick_same_hour_spacing (t0 j1 j2 H : Nat)
    (h1 : (t0 / 60 + j1) % 24 = H) (h2 : (t0 / 60 + j2) % 24 = H) (hlt : j1 < j2) :
    24 ≤ j2 - j1 := by
  have hmod : (t0 / 60 + j1) % 24 = (t0 / 60 + j2) % 24 := by rw [h1, h2]
  have hle : t0 / 60 + j1 ≤ t0 / 60 + j2 := by omega
  have hdvd : 24 ∣ t0 / 60 + j2 - (t0 / 60 + j1) :=
    (Nat.modEq_iff_dvd' hle).mp hmod
  have heq : t0 / 60 + j2 - (t0 / 60 + j1) = j2 - j1 := by omega
  rw [heq] at hdvd
  exact Nat.le_of_dvd (by omega) hdvd

/-- C8: over the hourly-tick model of `runScheduler`, every triggered evaluation
attempt falls on the configured hour; any later attempt is at least 23 hours
(in fact 24) after every earlier one — so the guard's "23 hours since the last
evaluation" reading also holds against attempted evaluations — and no two
attempts ever fall in the same clock-hour window. -/
theorem c8_scheduler_trigger :
    ∀ (H t0 n k le : Nat) (fail : Nat → Bool),
      (∀ t ∈ schedRun H t0 fail n k le, hourOfMin t = H) ∧
      (∀ t1 ∈ schedRun H t0 fail n k le, ∀ t2 ∈ schedRun H t0 fail n k le,
        t1 < t2 → 1380 ≤ t2 - t1) ∧
      (∀ t1 ∈ schedRun H t0 fail n k le, ∀ t2 ∈ schedRun H t0 fail n k le,
        t1 ≠ t2 → t1 / 60 ≠ t2 / 60) := by
  intro H t0 n k le fail
  have key : ∀ t1 ∈ schedRun H t0 fail n k le, ∀ t2 ∈ schedRun H t0 fail n k le,
      t1 < t2 → 1440 ≤ t2 - t1 := by
    intro t1 h1 t2 h2 hlt
    obtain ⟨j1, e1, hh1⟩ := schedRun_mem_shape H t0 fail n k le t1 h1
    obtain ⟨j2, e2, hh2⟩ := schedRun_mem_shape H t0 fail n k le t2 h2
    rw [e1, hourOfMin_tick] at hh1
    rw [e2, hourOfMin_tick] at hh2
    have hj : j1 < j2 := by omega
    have hspace := tick_same_hour_spacing t0 j1 j2 H hh1 hh2 hj
    omega
  refine ⟨?_, ?_, ?_⟩
  · intro t ht
    obtain ⟨j, _, hh⟩ := schedRun_mem_shape H t0 fail n k le t ht
    exact hh
  · intro t1 h1 t2 h2 hlt
    have := key t1 h1 t2 h2 hlt
    omega
  · intro t1 h1 t2 h2 hne hdiv
    rcases hne.lt_or_lt with hlt | hlt
    · have := key t1 h1 t2 h2 hlt
      omega
    · have := key t2 h2 t1 h1 hlt
      omega

/-- Witness for C8: a concrete 25-tick run (schedule hour 3, first tick at day 10
03:00) triggers exactly at minutes 14580 and 16020; applied to those two attempts
the theorem separates their hour windows. -/
theorem c8_witness :
    hourOfMin 14580 = 3 ∧ (1380 : Nat) ≤ 16020 - 14580 ∧
      (14580 : Nat) / 60 ≠ 16020 / 60 := by
  have h := c8_scheduler_trigger 3 14580 25 0 0 (fun _ => false)
  exact ⟨h.1 14580 (by decide),
         h.2.1 14580 (by decide) 16020 (by decide) (by decide),
         h.2.2 14580 (by decide) 16020 (by decide) (by decide)⟩


